import Mathlib

/-!
Shallow embedding of `src/main.py` (a command-line alarm clock).

The embedding models the two core classes, `Alarm` and `AlarmClock`, and
the helper value types `Time` and `DayOfWeek`.  Python `print` calls are
modelled as an emitted list of `Notification` events; Python exceptions
(`ValueError` from `int()` / `datetime.replace` / `DayOfWeek.from_str`,
`IndexError` from an out-of-range list subscript) are modelled with
`Except PyError`.  The wall clock read by `datetime.datetime.now()` is
passed in explicitly as a `PyDateTime` argument; the fresh UUID produced
by `uuid.uuid4()` in `Alarm.__init__` is passed in as a `Nat` identifier.
-/

namespace AlarmPy

deriving instance DecidableEq for Except

/-- Python exceptions that the source can raise: `ValueError` (carrying the
offending text) and `IndexError` (from `time_parts[1]` when the split has a
single element). -/
inductive PyError where
  | valueError : String → PyError
  | indexError : PyError
deriving DecidableEq

/-- Embeds the frozen dataclass `Time` of `main.py` (lines 16-29).  Fields
are `Int` because Python applies no range validation in the constructor. -/
structure Time where
  hour : Int
  minute : Int
deriving DecidableEq

/-- Model of Python `str.split(sep)` for a one-character separator, on the
character list of the string: splitting an empty string yields one empty
field, and the result always has one more field than there are separators. -/
def splitChars (sep : Char) : List Char → List (List Char)
  | [] => [[]]
  | c :: cs =>
    match splitChars sep cs with
    | [] => [[]]
    | g :: gs => if c = sep then [] :: g :: gs else (c :: g) :: gs

/-- Helper for `pyInt`: reads a nonempty all-digit character list as a `Nat`. -/
def digitsToNat (acc : Nat) : List Char → Option Nat
  | [] => some acc
  | c :: cs => if c.isDigit then digitsToNat (acc * 10 + (c.toNat - 48)) cs else none

/-- Model of Python `int(s)`: an optional sign followed by one or more
digits; anything else raises `ValueError`.  (Python additionally strips
whitespace and allows digit-group underscores; those forms are not
exercised here.) -/
def pyInt (s : String) : Option Int :=
  match s.toList with
  | [] => none
  | '-' :: rest =>
    match rest with
    | [] => none
    | _ => (digitsToNat 0 rest).map (fun n => -(n : Int))
  | '+' :: rest =>
    match rest with
    | [] => none
    | _ => (digitsToNat 0 rest).map (fun n => (n : Int))
  | l => (digitsToNat 0 l).map (fun n => (n : Int))

/-- Embeds `Time.from_str` (lines 24-29): split on `":"`, then
`int(parts[0])` and `int(parts[1])`.  A non-numeric field raises
`ValueError`; a string with no `":"` raises `IndexError` at `parts[1]`.
No range check is performed. -/
def Time.from_str (time_str : String) : Except PyError Time :=
  let time_parts := (splitChars ':' time_str.toList).map (fun cs => String.mk cs)
  match pyInt (time_parts.headD "") with
  | none => .error (.valueError (time_parts.headD ""))
  | some hour =>
    match time_parts[1]? with
    | none => .error .indexError
    | some p1 =>
      match pyInt p1 with
      | none => .error (.valueError p1)
      | some minute => .ok { hour := hour, minute := minute }

/-- Embeds the `DayOfWeek` enum (lines 31-38). -/
inductive DayOfWeek where
  | monday | tuesday | wednesday | thursday | friday | saturday | sunday
deriving DecidableEq

/-- Model of Python `str.upper()`. -/
def pyUpper (s : String) : String :=
  String.mk (s.toList.map Char.toUpper)

/-- Embeds `DayOfWeek.from_str` (lines 40-45): case-insensitive lookup by
enum member name; an unrecognized name raises `ValueError`. -/
def DayOfWeek.from_str (day_str : String) : Except PyError DayOfWeek :=
  let u := pyUpper day_str
  if u = "MONDAY" then .ok .monday
  else if u = "TUESDAY" then .ok .tuesday
  else if u = "WEDNESDAY" then .ok .wednesday
  else if u = "THURSDAY" then .ok .thursday
  else if u = "FRIDAY" then .ok .friday
  else if u = "SATURDAY" then .ok .saturday
  else if u = "SUNDAY" then .ok .sunday
  else .error (.valueError day_str)

/-- Embeds the `Alarm` class state (lines 47-54), in the assignment order of
`__init__`.  `id` stands for the `uuid.uuid4()` string; `snooze_count` is
`Int` because Python does not constrain the field's type. -/
structure Alarm where
  id : Nat
  original_time : Time
  day : DayOfWeek
  snooze_count : Int
  active : Bool
  snoozed_time : Option Time
deriving DecidableEq

/-- Embeds `Alarm.current_time` (lines 56-57): the snoozed override when
present, else the original time.  (A `Time` instance is always truthy in
Python, so the truthiness test is exactly a `None` test.) -/
def Alarm.current_time (a : Alarm) : Time :=
  a.snoozed_time.getD a.original_time

/-- Notification events, one per `print` call of the source. -/
inductive Notification where
  | snoozedTo : Nat → Time → Notification
  | snoozeLimit : Nat → Notification
  | alarmSet : Nat → Time → DayOfWeek → Notification
  | deleted : Nat → Notification
  | noAlarmFound : String → String → Notification
  | printedError : PyError → Notification
  | firing : Time → DayOfWeek → Notification
deriving DecidableEq

/-- Model of the `datetime.datetime` value returned by
`datetime.datetime.now()`: the date as an absolute day count plus the
time-of-day fields (the microsecond field is dropped together with the
`microsecond=0` truncation). -/
structure PyDateTime where
  date : Nat
  hour : Nat
  minute : Nat
  second : Nat
deriving DecidableEq

/-- Model of `datetime.replace(hour=h, minute=m)`: `datetime` validates the
ranges and raises `ValueError` on an out-of-range field. -/
def pyReplaceHourMinute (dt : PyDateTime) (h m : Int) : Except PyError PyDateTime :=
  if 0 ≤ h ∧ h ≤ 23 ∧ 0 ≤ m ∧ m ≤ 59 then
    .ok { dt with hour := h.toNat, minute := m.toNat }
  else
    .error (.valueError "hour or minute out of range")

/-- Model of `datetime + timedelta(minutes=k)`: carry minute overflow into
the hour and the date. -/
def pyAddMinutes (dt : PyDateTime) (k : Nat) : PyDateTime :=
  let total := dt.hour * 60 + dt.minute + k
  { dt with
      date := dt.date + total / 1440
      hour := total % 1440 / 60
      minute := total % 1440 % 60 }

/-- Embeds `Alarm.snooze` (lines 59-70).  The wall clock read by
`datetime.datetime.now()` is the explicit `nowClock` argument.  Under 3
snoozes: truncate `now` to the minute, override its hour/minute with
`current_time()`'s (raising `ValueError` if those are out of range), add 5
minutes, store the result's hour/minute as `snoozed_time`, increment
`snooze_count` and report; at 3 snoozes: report only. -/
def Alarm.snooze (a : Alarm) (nowClock : PyDateTime) :
    Except PyError (Alarm × List Notification) :=
  if a.snooze_count < 3 then
    let now := { nowClock with second := 0 }
    match pyReplaceHourMinute now a.current_time.hour a.current_time.minute with
    | .error e => .error e
    | .ok alarm_time =>
      let snoozed_dt := pyAddMinutes alarm_time 5
      let st : Time := { hour := (snoozed_dt.hour : Int), minute := (snoozed_dt.minute : Int) }
      .ok ({ a with snoozed_time := some st, snooze_count := a.snooze_count + 1 },
        [.snoozedTo a.id st])
  else
    .ok (a, [.snoozeLimit a.id])

/-- Embeds `Alarm.reset_snooze` (lines 72-74). -/
def Alarm.reset_snooze (a : Alarm) : Alarm :=
  { a with snooze_count := 0, snoozed_time := none }

/-- Embeds the `AlarmClock` state (lines 76-79): the ordered alarm list and
the `running` flag. -/
structure AlarmClock where
  alarms : List Alarm
  running : Bool
deriving DecidableEq

/-- Embeds `AlarmClock.add_alarm` (lines 81-86).  `newId` stands for the
fresh `uuid.uuid4()` drawn inside `Alarm.__init__`.  The two `from_str`
calls are not wrapped in `try`, so a parse failure propagates as an
exception (the `.error` case) and nothing is appended. -/
def AlarmClock.add_alarm (c : AlarmClock) (newId : Nat) (time_str day_str : String) :
    Except PyError (AlarmClock × List Notification) :=
  match Time.from_str time_str with
  | .error e => .error e
  | .ok time_obj =>
    match DayOfWeek.from_str day_str with
    | .error e => .error e
    | .ok day_enum =>
      let alarm : Alarm :=
        { id := newId, original_time := time_obj, day := day_enum,
          snooze_count := 0, active := true, snoozed_time := none }
      .ok ({ c with alarms := c.alarms ++ [alarm] },
        [.alarmSet newId time_obj day_enum])

/-- Embeds `AlarmClock.delete_alarm` (lines 88-90): rebuild the list without
the matching id and print `Deleted alarm ...` unconditionally. -/
def AlarmClock.delete_alarm (c : AlarmClock) (alarm_id : Nat) :
    AlarmClock × List Notification :=
  ({ c with alarms := c.alarms.filter (fun a => a.id ≠ alarm_id) },
    [.deleted alarm_id])

/-- Helper for `AlarmClock.snooze_alarm`: the `for ... break` loop of lines
93-96, snoozing the first alarm whose id matches and leaving the rest
untouched. -/
def snoozeFirst (nowClock : PyDateTime) (alarm_id : Nat) :
    List Alarm → Except PyError (List Alarm × List Notification)
  | [] => .ok ([], [])
  | a :: rest =>
    if a.id = alarm_id then
      match a.snooze nowClock with
      | .error e => .error e
      | .ok (a', msgs) => .ok (a' :: rest, msgs)
    else
      match snoozeFirst nowClock alarm_id rest with
      | .error e => .error e
      | .ok (rest', msgs) => .ok (a :: rest', msgs)

/-- Embeds `AlarmClock.snooze_alarm` (lines 92-96). -/
def AlarmClock.snooze_alarm (c : AlarmClock) (nowClock : PyDateTime) (alarm_id : Nat) :
    Except PyError (AlarmClock × List Notification) :=
  match snoozeFirst nowClock alarm_id c.alarms with
  | .error e => .error e
  | .ok (alarms', msgs) => .ok ({ c with alarms := alarms' }, msgs)

/-- Embeds `AlarmClock.find_alarm_by_time_day` (lines 105-116): parse both
strings inside a `try` that catches only `ValueError` (printing it and
returning `None`); an `IndexError` from a colonless time string escapes.
On success, linear scan for the first alarm matching on `original_time`
and `day`. -/
def AlarmClock.find_alarm_by_time_day (c : AlarmClock) (time_str day_str : String) :
    Except PyError (Option Alarm × List Notification) :=
  match Time.from_str time_str with
  | .error (.valueError s) => .ok (none, [.printedError (.valueError s)])
  | .error .indexError => .error .indexError
  | .ok target_time =>
    match DayOfWeek.from_str day_str with
    | .error (.valueError s) => .ok (none, [.printedError (.valueError s)])
    | .error .indexError => .error .indexError
    | .ok target_day =>
      .ok (c.alarms.find?
        (fun a => decide (a.original_time = target_time) && decide (a.day = target_day)), [])

/-- Embeds `AlarmClock.snooze_alarm_by_time_day` (lines 98-103): find by
time/day, snooze through `snooze_alarm` when found, else print
`No alarm found ...`. -/
def AlarmClock.snooze_alarm_by_time_day (c : AlarmClock) (nowClock : PyDateTime)
    (time_str day_str : String) : Except PyError (AlarmClock × List Notification) :=
  match c.find_alarm_by_time_day time_str day_str with
  | .error e => .error e
  | .ok (some alarm, msgs) =>
    match c.snooze_alarm nowClock alarm.id with
    | .error e => .error e
    | .ok (c', msgs') => .ok (c', msgs ++ msgs')
  | .ok (none, msgs) => .ok (c, msgs ++ [.noAlarmFound time_str day_str])

/-- The firing condition of line 124: armed, effective time equals the
current wall-clock minute, day equals the current weekday. -/
def fires (now : Time) (today : DayOfWeek) (a : Alarm) : Bool :=
  a.active && decide (a.current_time = now) && decide (a.day = today)

/-- Embeds one iteration of the `check_alarms` reconciliation loop body
(lines 120-126), at a given wall-clock minute and weekday: each alarm that
satisfies `fires` emits a firing notification and is deactivated.  The
surrounding `while self.running` / `time.sleep(60)` real-time loop is
modelled by applying this tick once per minute boundary. -/
def checkTick (now : Time) (today : DayOfWeek) :
    List Alarm → List Alarm × List Notification
  | [] => ([], [])
  | a :: rest =>
    let r := checkTick now today rest
    if fires now today a then
      ({ a with active := false } :: r.1, .firing a.current_time a.day :: r.2)
    else
      (a :: r.1, r.2)

/-- Applies `Alarm.reset_snooze` to the alarm with the given id (the method
has no registry-level caller in the source; this is the natural lifting
used to state sequences of operations). -/
def resetSnoozeById (c : AlarmClock) (alarm_id : Nat) : AlarmClock :=
  { c with alarms := c.alarms.map (fun a => if a.id = alarm_id then a.reset_snooze else a) }

/-- One foreground or background operation on the registry, for stating
properties over arbitrary operation sequences.  Wall-clock reads and fresh
UUIDs are carried as data on the operation. -/
inductive Op where
  | add : Nat → String → String → Op
  | delete : Nat → Op
  | snoozeById : PyDateTime → Nat → Op
  | snoozeByTimeDay : PyDateTime → String → String → Op
  | resetSnooze : Nat → Op
  | tick : Time → DayOfWeek → Op

/-- State transition of one operation.  A raised exception leaves the state
unchanged (in the source every raise happens before any mutation). -/
def step (c : AlarmClock) : Op → AlarmClock
  | .add newId ts ds =>
    match c.add_alarm newId ts ds with
    | .error _ => c
    | .ok (c', _) => c'
  | .delete i => (c.delete_alarm i).1
  | .snoozeById wc i =>
    match c.snooze_alarm wc i with
    | .error _ => c
    | .ok (c', _) => c'
  | .snoozeByTimeDay wc ts ds =>
    match c.snooze_alarm_by_time_day wc ts ds with
    | .error _ => c
    | .ok (c', _) => c'
  | .resetSnooze i => resetSnoozeById c i
  | .tick now today => { c with alarms := (checkTick now today c.alarms).1 }

/-- The registry as built by `AlarmClock.__init__` (lines 77-79). -/
def initClock : AlarmClock :=
  { alarms := [], running := true }

/-- Runs a sequence of operations from the freshly constructed registry. -/
def run (ops : List Op) : AlarmClock :=
  ops.foldl step initClock

/-- Modelled from the spec: the effective time plus exactly 5 minutes under
standard clock arithmetic, minute-to-hour and hour-to-day wraparound
included, stated independently of the source to compare `Alarm.snooze`
against. -/
def specAddFive (t : Time) : Time :=
  { hour := (t.hour * 60 + t.minute + 5) / 60 % 24
    minute := (t.hour * 60 + t.minute + 5) % 60 }

/-- Closed form of one reconciliation tick: each alarm is deactivated
exactly when it fires, and one firing notification is emitted per firing
alarm, in list order. -/
theorem checkTick_eq (now : Time) (today : DayOfWeek) (alarms : List Alarm) :
    checkTick now today alarms
    = (alarms.map (fun a => if fires now today a then { a with active := false } else a),
      (alarms.filter (fires now today)).map (fun a => Notification.firing a.current_time a.day)) := by
  induction alarms with
  | nil => rfl
  | cons a rest ih =>
    by_cases h : fires now today a <;> simp [checkTick, ih, h, List.filter_cons]

/-- A tick over alarms none of which fire leaves the list unchanged and
emits nothing. -/
theorem checkTick_no_refire (now : Time) (today : DayOfWeek) (l : List Alarm)
    (h : ∀ a ∈ l, fires now today a = false) :
    checkTick now today l = (l, []) := by
  induction l with
  | nil => rfl
  | cons a rest ih =>
    have ha := h a (by simp)
    have hrest := ih (fun b hb => h b (by simp [hb]))
    simp [checkTick, ha, hrest]

/-- A deactivated alarm never fires. -/
theorem fires_deactivated (now : Time) (today : DayOfWeek) (a : Alarm) :
    fires now today { a with active := false } = false := by
  simp [fires]

/-- A successful `snooze` keeps the snooze count within bounds. -/
theorem snooze_count_le (a a' : Alarm) (wc : PyDateTime) (msgs : List Notification)
    (h : a.snooze wc = .ok (a', msgs)) (hb : 0 ≤ a.snooze_count ∧ a.snooze_count ≤ 3) :
    0 ≤ a'.snooze_count ∧ a'.snooze_count ≤ 3 := by
  unfold Alarm.snooze at h
  split at h
  · dsimp only at h
    split at h
    · exact absurd h (by simp)
    · rename_i hc _ _
      simp only [Except.ok.injEq, Prod.mk.injEq] at h
      obtain ⟨h1, -⟩ := h
      rw [← h1]
      simp only
      omega
  · simp only [Except.ok.injEq, Prod.mk.injEq] at h
    obtain ⟨h1, -⟩ := h
    rw [← h1]
    exact hb

/-- The first-match snooze of the registry loop keeps every snooze count
within bounds. -/
theorem snoozeFirst_inv (wc : PyDateTime) (i : Nat) (l l' : List Alarm)
    (msgs : List Notification) (h : snoozeFirst wc i l = .ok (l', msgs))
    (hb : ∀ a ∈ l, 0 ≤ a.snooze_count ∧ a.snooze_count ≤ 3) :
    ∀ a ∈ l', 0 ≤ a.snooze_count ∧ a.snooze_count ≤ 3 := by
  induction l generalizing l' msgs with
  | nil =>
    simp only [snoozeFirst, Except.ok.injEq, Prod.mk.injEq] at h
    obtain ⟨h1, -⟩ := h
    rw [← h1]
    simp
  | cons a rest ih =>
    unfold snoozeFirst at h
    split at h
    · split at h
      · exact absurd h (by simp)
      · rename_i hsn
        simp only [Except.ok.injEq, Prod.mk.injEq] at h
        obtain ⟨h1, -⟩ := h
        rw [← h1]
        intro b hb'
        rcases List.mem_cons.mp hb' with rfl | hmem
        · exact snooze_count_le a b wc _ hsn (hb a (by simp))
        · exact hb b (by simp [hmem])
    · split at h
      · exact absurd h (by simp)
      · rename_i hrest
        simp only [Except.ok.injEq, Prod.mk.injEq] at h
        obtain ⟨h1, -⟩ := h
        rw [← h1]
        intro b hb'
        rcases List.mem_cons.mp hb' with rfl | hmem
        · exact hb b (by simp)
        · exact ih _ _ hrest (fun x hx => hb x (by simp [hx])) b hmem

/-- A successful `add_alarm` appends one fresh alarm with snooze count 0. -/
theorem add_alarm_ok_shape (c c' : AlarmClock) (i : Nat) (ts ds : String)
    (msgs : List Notification) (h : c.add_alarm i ts ds = .ok (c', msgs)) :
    ∃ t d, c'.alarms = c.alarms ++ [⟨i, t, d, 0, true, none⟩] := by
  unfold AlarmClock.add_alarm at h
  split at h
  · exact absurd h (by simp)
  · split at h
    · exact absurd h (by simp)
    · simp only [Except.ok.injEq, Prod.mk.injEq] at h
      obtain ⟨h1, -⟩ := h
      rw [← h1]
      exact ⟨_, _, rfl⟩

/-- `snooze_alarm` keeps every snooze count within bounds. -/
theorem snooze_alarm_inv (c c' : AlarmClock) (wc : PyDateTime) (i : Nat)
    (msgs : List Notification) (h : c.snooze_alarm wc i = .ok (c', msgs))
    (hb : ∀ a ∈ c.alarms, 0 ≤ a.snooze_count ∧ a.snooze_count ≤ 3) :
    ∀ a ∈ c'.alarms, 0 ≤ a.snooze_count ∧ a.snooze_count ≤ 3 := by
  unfold AlarmClock.snooze_alarm at h
  split at h
  · exact absurd h (by simp)
  · rename_i l' msgs' hsf
    simp only [Except.ok.injEq, Prod.mk.injEq] at h
    obtain ⟨h1, -⟩ := h
    rw [← h1]
    exact snoozeFirst_inv wc i c.alarms l' msgs' hsf hb

/-- Every single operation keeps every snooze count within bounds. -/
theorem step_inv (c : AlarmClock) (op : Op)
    (hb : ∀ a ∈ c.alarms, 0 ≤ a.snooze_count ∧ a.snooze_count ≤ 3) :
    ∀ a ∈ (step c op).alarms, 0 ≤ a.snooze_count ∧ a.snooze_count ≤ 3 := by
  cases op with
  | add i ts ds =>
    simp only [step]
    split
    · exact hb
    · rename_i c' msgs heq
      obtain ⟨t, d, halarms⟩ := add_alarm_ok_shape c c' i ts ds msgs heq
      rw [halarms]
      intro a ha
      rcases List.mem_append.mp ha with hmem | hmem
      · exact hb a hmem
      · simp only [List.mem_singleton] at hmem
        rw [hmem]
        exact ⟨le_refl 0, by norm_num⟩
  | delete i =>
    simp only [step, AlarmClock.delete_alarm]
    intro a ha
    exact hb a (List.mem_of_mem_filter ha)
  | snoozeById wc i =>
    simp only [step]
    split
    · exact hb
    · rename_i c' msgs heq
      exact snooze_alarm_inv c c' wc i msgs heq hb
  | snoozeByTimeDay wc ts ds =>
    simp only [step]
    split
    · exact hb
    · rename_i c' msgs heq
      unfold AlarmClock.snooze_alarm_by_time_day at heq
      split at heq
      · exact absurd heq (by simp)
      · rename_i alarm msgs₁ hfind
        split at heq
        · exact absurd heq (by simp)
        · rename_i c'' msgs₂ hsn
          simp only [Except.ok.injEq, Prod.mk.injEq] at heq
          obtain ⟨h1, -⟩ := heq
          rw [← h1]
          exact snooze_alarm_inv c c'' wc alarm.id msgs₂ hsn hb
      · rename_i msgs₁ hfind
        simp only [Except.ok.injEq, Prod.mk.injEq] at heq
        obtain ⟨h1, -⟩ := heq
        rw [← h1]
        exact hb
  | resetSnooze i =>
    simp only [step, resetSnoozeById]
    intro a ha
    rw [List.mem_map] at ha
    obtain ⟨b, hbmem, rfl⟩ := ha
    by_cases hid : b.id = i
    · simp only [hid, if_pos rfl, Alarm.reset_snooze]
      exact ⟨le_refl 0, by norm_num⟩
    · simp only [if_neg hid]
      exact hb b hbmem
  | tick now today =>
    simp only [step]
    have he := congrArg Prod.fst (checkTick_eq now today c.alarms)
    rw [he]
    intro a ha
    rw [List.mem_map] at ha
    obtain ⟨b, hbmem, rfl⟩ := ha
    by_cases hf : fires now today b <;>
      simp only [hf, if_pos, if_neg, if_true, if_false, Bool.false_eq_true] <;>
      exact hb b hbmem

/-- Any operation sequence from the fresh registry keeps every snooze
count within bounds. -/
theorem run_inv (ops : List Op) :
    ∀ a ∈ (run ops).alarms, 0 ≤ a.snooze_count ∧ a.snooze_count ≤ 3 := by
  have key : ∀ (l : List Op) (c : AlarmClock),
      (∀ a ∈ c.alarms, 0 ≤ a.snooze_count ∧ a.snooze_count ≤ 3) →
      ∀ a ∈ (l.foldl step c).alarms, 0 ≤ a.snooze_count ∧ a.snooze_count ≤ 3 := by
    intro l
    induction l with
    | nil => exact fun c h => h
    | cons op rest ih => exact fun c hc => ih (step c op) (step_inv c op hc)
  exact key ops initClock (by simp [initClock])

/-- C1: on a reconciliation tick, every alarm that is active with effective
time equal to the current wall-clock minute and day equal to the current
weekday is deactivated and yields exactly one firing notification (one per
firing alarm, in order, none for the rest); a second tick at the same
time and day leaves the state unchanged and emits nothing, because every
previously matching alarm now has `active = false`. -/
theorem check_alarms_level_triggered (now : Time) (today : DayOfWeek) (alarms : List Alarm) :
    (checkTick now today alarms).1
      = alarms.map (fun a => if fires now today a then { a with active := false } else a) ∧
    (checkTick now today alarms).2
      = (alarms.filter (fires now today)).map (fun a => Notification.firing a.current_time a.day) ∧
    checkTick now today (checkTick now today alarms).1 = ((checkTick now today alarms).1, []) := by
  refine ⟨by rw [checkTick_eq], by rw [checkTick_eq], ?_⟩
  apply checkTick_no_refire
  rw [checkTick_eq]
  simp only [List.mem_map]
  rintro b ⟨a, -, rfl⟩
  by_cases h : fires now today a <;> simp [h, fires_deactivated]

/-- C2: for an alarm with fewer than 3 snoozes and an in-range effective
time, `snooze` stores as `snoozed_time` the effective time plus exactly 5
minutes under standard clock arithmetic (`specAddFive`), increments the
snooze count by one, and leaves `id`, `original_time`, `day` and `active`
unchanged, whatever the wall clock reads. -/
theorem snooze_adds_five_minutes (a : Alarm) (nowClock : PyDateTime)
    (hc : a.snooze_count < 3)
    (h0 : 0 ≤ a.current_time.hour) (h1 : a.current_time.hour ≤ 23)
    (h2 : 0 ≤ a.current_time.minute) (h3 : a.current_time.minute ≤ 59) :
    a.snooze nowClock
    = .ok ({ a with
        snoozed_time := some (specAddFive a.current_time)
        snooze_count := a.snooze_count + 1 },
      [.snoozedTo a.id (specAddFive a.current_time)]) := by
  have e1 : (((a.current_time.hour.toNat * 60 + a.current_time.minute.toNat + 5) % 1440 / 60 : Nat) : Int)
      = (a.current_time.hour * 60 + a.current_time.minute + 5) / 60 % 24 := by omega
  have e2 : (((a.current_time.hour.toNat * 60 + a.current_time.minute.toNat + 5) % 1440 % 60 : Nat) : Int)
      = (a.current_time.hour * 60 + a.current_time.minute + 5) % 60 := by omega
  simp [Alarm.snooze, pyReplaceHourMinute, pyAddMinutes, specAddFive, hc, h0, h1, h2, h3, e1, e2]

/-- Witness for C2 at the spec wrap example: effective time 23:58 snoozed
once becomes 00:03 with the day field untouched. -/
theorem snooze_adds_five_minutes_witness :
    Alarm.snooze ⟨1, ⟨23, 58⟩, .monday, 0, true, none⟩ ⟨700000, 9, 41, 27⟩
      = .ok (⟨1, ⟨23, 58⟩, .monday, 1, true, some ⟨0, 3⟩⟩, [.snoozedTo 1 ⟨0, 3⟩]) := by
  have h := snooze_adds_five_minutes ⟨1, ⟨23, 58⟩, .monday, 0, true, none⟩ ⟨700000, 9, 41, 27⟩
    (by decide) (by decide) (by decide) (by decide) (by decide)
  rw [h]
  decide

/-- C3: along every operation sequence from the fresh registry, every alarm
satisfies `0 ≤ snooze_count ≤ 3`; and `snooze` on an alarm whose count is
already 3 returns the alarm completely unchanged, emitting only the
already-snoozed-3-times notification. -/
theorem snooze_count_invariant :
    (∀ (ops : List Op), ∀ a ∈ (run ops).alarms,
      0 ≤ a.snooze_count ∧ a.snooze_count ≤ 3) ∧
    (∀ (a : Alarm) (wc : PyDateTime), a.snooze_count = 3 →
      a.snooze wc = .ok (a, [.snoozeLimit a.id])) := by
  constructor
  · exact run_inv
  · intro a wc h3
    unfold Alarm.snooze
    rw [if_neg (by omega)]

/-- Witness for C3: the alarm created by one `add` has count 0 within
bounds, and a concrete alarm at count 3 is returned unchanged with only
the limit notification. -/
theorem snooze_count_invariant_witness :
    (0 ≤ (⟨1, ⟨5, 0⟩, DayOfWeek.monday, 0, true, none⟩ : Alarm).snooze_count ∧
      (⟨1, ⟨5, 0⟩, DayOfWeek.monday, 0, true, none⟩ : Alarm).snooze_count ≤ 3) ∧
    Alarm.snooze ⟨2, ⟨5, 15⟩, .monday, 3, true, none⟩ ⟨0, 0, 0, 0⟩
      = .ok (⟨2, ⟨5, 15⟩, .monday, 3, true, none⟩, [.snoozeLimit 2]) :=
  ⟨snooze_count_invariant.1 [Op.add 1 "05:00" "Monday"] _ (by decide),
    snooze_count_invariant.2 ⟨2, ⟨5, 15⟩, .monday, 3, true, none⟩ ⟨0, 0, 0, 0⟩ rfl⟩

/-- C4 as stated is false: `add_alarm` does not catch parse failures, so a
non-numeric time raises an uncaught `ValueError`; an out-of-range numeric
time is not a parse error at all and mutates the registry; and a time
string without a colon raises an uncaught `IndexError` even from
`find_alarm_by_time_day`. -/
theorem parse_error_crash_counterexample :
    AlarmClock.add_alarm ⟨[], true⟩ 0 "aa:bb" "Monday" = .error (.valueError "aa") ∧
    AlarmClock.add_alarm ⟨[], true⟩ 0 "99:99" "Monday"
      = .ok (⟨[⟨0, ⟨99, 99⟩, .monday, 0, true, none⟩], true⟩, [.alarmSet 0 ⟨99, 99⟩ .monday]) ∧
    AlarmClock.find_alarm_by_time_day ⟨[], true⟩ "05" "Monday" = .error .indexError := by
  decide

/-- C4 amended: a `ValueError` parse failure (non-numeric time field,
unknown day name) propagates out of `add_alarm` uncaught with the registry
unmutated, while `find_alarm_by_time_day` (and `snooze_alarm_by_time_day`
through it) catches it, reports it and returns none with no state change;
an `IndexError` from a colonless time string propagates even out of
`find_alarm_by_time_day`. -/
theorem parse_failure_behavior :
    (∀ (c : AlarmClock) (i : Nat) (ts ds : String) (e : PyError),
      Time.from_str ts = .error e → c.add_alarm i ts ds = .error e) ∧
    (∀ (c : AlarmClock) (i : Nat) (ts ds : String) (t : Time) (e : PyError),
      Time.from_str ts = .ok t → DayOfWeek.from_str ds = .error e →
        c.add_alarm i ts ds = .error e) ∧
    (∀ (c : AlarmClock) (i : Nat) (ts ds : String) (e : PyError),
      Time.from_str ts = .error e → step c (.add i ts ds) = c) ∧
    (∀ (c : AlarmClock) (ts ds s : String),
      Time.from_str ts = .error (.valueError s) →
        c.find_alarm_by_time_day ts ds = .ok (none, [.printedError (.valueError s)])) ∧
    (∀ (c : AlarmClock) (ts ds s : String) (t : Time),
      Time.from_str ts = .ok t → DayOfWeek.from_str ds = .error (.valueError s) →
        c.find_alarm_by_time_day ts ds = .ok (none, [.printedError (.valueError s)])) ∧
    (∀ (c : AlarmClock) (ts ds : String),
      Time.from_str ts = .error .indexError →
        c.find_alarm_by_time_day ts ds = .error .indexError) ∧
    (∀ (c : AlarmClock) (wc : PyDateTime) (ts ds s : String),
      Time.from_str ts = .error (.valueError s) →
        c.snooze_alarm_by_time_day wc ts ds
          = .ok (c, [.printedError (.valueError s), .noAlarmFound ts ds])) := by
  refine ⟨?_, ?_, ?_, ?_, ?_, ?_, ?_⟩
  · intro c i ts ds e ht
    simp [AlarmClock.add_alarm, ht]
  · intro c i ts ds t e ht hd
    simp [AlarmClock.add_alarm, ht, hd]
  · intro c i ts ds e ht
    simp [step, AlarmClock.add_alarm, ht]
  · intro c ts ds s ht
    simp [AlarmClock.find_alarm_by_time_day, ht]
  · intro c ts ds s t ht hd
    simp [AlarmClock.find_alarm_by_time_day, ht, hd]
  · intro c ts ds ht
    simp [AlarmClock.find_alarm_by_time_day, ht]
  · intro c wc ts ds s ht
    simp [AlarmClock.snooze_alarm_by_time_day, AlarmClock.find_alarm_by_time_day, ht]

/-- Witness for the amended C4, at concrete malformed inputs. -/
theorem parse_failure_behavior_witness :
    AlarmClock.add_alarm ⟨[], true⟩ 0 "aa:bb" "Monday" = .error (.valueError "aa") ∧
    AlarmClock.add_alarm ⟨[], true⟩ 0 "05:00" "Funday" = .error (.valueError "Funday") ∧
    step ⟨[], true⟩ (.add 0 "aa:bb" "Monday") = ⟨[], true⟩ ∧
    AlarmClock.find_alarm_by_time_day ⟨[], true⟩ "aa:bb" "Monday"
      = .ok (none, [.printedError (.valueError "aa")]) ∧
    AlarmClock.find_alarm_by_time_day ⟨[], true⟩ "05:00" "Funday"
      = .ok (none, [.printedError (.valueError "Funday")]) ∧
    AlarmClock.find_alarm_by_time_day ⟨[], true⟩ "05" "Monday" = .error .indexError ∧
    AlarmClock.snooze_alarm_by_time_day ⟨[], true⟩ ⟨0, 0, 0, 0⟩ "aa:bb" "Monday"
      = .ok (⟨[], true⟩, [.printedError (.valueError "aa"), .noAlarmFound "aa:bb" "Monday"]) :=
  ⟨parse_failure_behavior.1 ⟨[], true⟩ 0 "aa:bb" "Monday" (.valueError "aa") (by decide),
    parse_failure_behavior.2.1 ⟨[], true⟩ 0 "05:00" "Funday" ⟨5, 0⟩ (.valueError "Funday")
      (by decide) (by decide),
    parse_failure_behavior.2.2.1 ⟨[], true⟩ 0 "aa:bb" "Monday" (.valueError "aa") (by decide),
    parse_failure_behavior.2.2.2.1 ⟨[], true⟩ "aa:bb" "Monday" "aa" (by decide),
    parse_failure_behavior.2.2.2.2.1 ⟨[], true⟩ "05:00" "Funday" "Funday" ⟨5, 0⟩
      (by decide) (by decide),
    parse_failure_behavior.2.2.2.2.2.1 ⟨[], true⟩ "05" "Monday" (by decide),
    parse_failure_behavior.2.2.2.2.2.2 ⟨[], true⟩ ⟨0, 0, 0, 0⟩ "aa:bb" "Monday" "aa" (by decide)⟩

/-- C5 as stated is false: when an alarm with the same scheduled time and
day already sits earlier in the registry with a nonzero snooze count,
`add_alarm` followed by `find_alarm_by_time_day` returns that earlier
alarm, whose snooze count is 1, not 0. -/
theorem add_then_find_counterexample :
    AlarmClock.add_alarm ⟨[⟨1, ⟨5, 0⟩, .monday, 1, true, some ⟨5, 5⟩⟩], true⟩ 2 "05:00" "Monday"
      = .ok (⟨[⟨1, ⟨5, 0⟩, .monday, 1, true, some ⟨5, 5⟩⟩,
          ⟨2, ⟨5, 0⟩, .monday, 0, true, none⟩], true⟩, [.alarmSet 2 ⟨5, 0⟩ .monday]) ∧
    AlarmClock.find_alarm_by_time_day
        ⟨[⟨1, ⟨5, 0⟩, .monday, 1, true, some ⟨5, 5⟩⟩,
          ⟨2, ⟨5, 0⟩, .monday, 0, true, none⟩], true⟩ "05:00" "Monday"
      = .ok (some ⟨1, ⟨5, 0⟩, .monday, 1, true, some ⟨5, 5⟩⟩, []) ∧
    (⟨1, ⟨5, 0⟩, .monday, 1, true, some ⟨5, 5⟩⟩ : Alarm).snooze_count ≠ 0 := by
  decide

/-- C5 amended: for valid time and day strings, on a registry holding no
alarm with that scheduled time and day, `add_alarm` followed by
`find_alarm_by_time_day` with the same strings returns exactly the newly
added alarm: scheduled time and day as given, snooze count 0, active. -/
theorem add_then_find_fresh (c : AlarmClock) (newId : Nat) (ts ds : String)
    (t : Time) (d : DayOfWeek)
    (ht : Time.from_str ts = .ok t) (hd : DayOfWeek.from_str ds = .ok d)
    (hfresh : ∀ a ∈ c.alarms, ¬(a.original_time = t ∧ a.day = d)) :
    ∃ c' msgs, c.add_alarm newId ts ds = .ok (c', msgs) ∧
      c'.find_alarm_by_time_day ts ds
        = .ok (some ⟨newId, t, d, 0, true, none⟩, []) ∧
      (⟨newId, t, d, 0, true, none⟩ : Alarm).snooze_count = 0 ∧
      (⟨newId, t, d, 0, true, none⟩ : Alarm).active = true := by
  refine ⟨{ c with alarms := c.alarms ++ [⟨newId, t, d, 0, true, none⟩] },
    [.alarmSet newId t d], ?_, ?_, rfl, rfl⟩
  · simp [AlarmClock.add_alarm, ht, hd]
  · simp only [AlarmClock.find_alarm_by_time_day, ht, hd]
    rw [List.find?_append]
    have hnone : c.alarms.find?
        (fun a => decide (a.original_time = t) && decide (a.day = d)) = none := by
      rw [List.find?_eq_none]
      intro a ha
      have := hfresh a ha
      simp only [Bool.and_eq_true, decide_eq_true_eq]
      intro hcontra
      exact this hcontra
    rw [hnone]
    simp

/-- Witness for the amended C5 on the empty registry at 05:00 Monday. -/
theorem add_then_find_fresh_witness :
    ∃ c' msgs, AlarmClock.add_alarm ⟨[], true⟩ 1 "05:00" "Monday" = .ok (c', msgs) ∧
      c'.find_alarm_by_time_day "05:00" "Monday"
        = .ok (some ⟨1, ⟨5, 0⟩, .monday, 0, true, none⟩, []) ∧
      (⟨1, ⟨5, 0⟩, .monday, 0, true, none⟩ : Alarm).snooze_count = 0 ∧
      (⟨1, ⟨5, 0⟩, .monday, 0, true, none⟩ : Alarm).active = true :=
  add_then_find_fresh ⟨[], true⟩ 1 "05:00" "Monday" ⟨5, 0⟩ .monday
    (by decide) (by decide) (by simp)

/-- C6: `reset_snooze` unconditionally zeroes the snooze count and clears
the snoozed time together, making the effective time the scheduled time
again, and changes no other field. -/
theorem reset_snooze_spec (a : Alarm) :
    a.reset_snooze.snooze_count = 0 ∧
    a.reset_snooze.snoozed_time = none ∧
    a.reset_snooze.current_time = a.original_time ∧
    a.reset_snooze.id = a.id ∧
    a.reset_snooze.original_time = a.original_time ∧
    a.reset_snooze.day = a.day ∧
    a.reset_snooze.active = a.active :=
  ⟨rfl, rfl, rfl, rfl, rfl, rfl, rfl⟩

/-- C7: for valid time and day strings, `find_alarm_by_time_day` returns
the first alarm of the insertion-ordered linear scan matching on
`original_time` (the scheduled time) and `day`, none when no alarm
matches, and its match test is unchanged by any snoozed-time override. -/
theorem find_first_match (c : AlarmClock) (ts ds : String) (t : Time) (d : DayOfWeek)
    (ht : Time.from_str ts = .ok t) (hd : DayOfWeek.from_str ds = .ok d) :
    c.find_alarm_by_time_day ts ds
      = .ok (c.alarms.find? (fun a => decide (a.original_time = t) && decide (a.day = d)), []) ∧
    (c.alarms.find? (fun a => decide (a.original_time = t) && decide (a.day = d)) = none
      ↔ ∀ a ∈ c.alarms, ¬(a.original_time = t ∧ a.day = d)) ∧
    (∀ (a : Alarm) (st : Option Time),
      (decide (({ a with snoozed_time := st } : Alarm).original_time = t)
          && decide (({ a with snoozed_time := st } : Alarm).day = d))
        = (decide (a.original_time = t) && decide (a.day = d))) := by
  refine ⟨?_, ?_, fun a st => rfl⟩
  · unfold AlarmClock.find_alarm_by_time_day
    rw [ht, hd]
  · rw [List.find?_eq_none]
    constructor
    · intro h a ha hcontra
      have := h a ha
      simp [hcontra.1, hcontra.2] at this
    · intro h a ha
      have := h a ha
      simp only [Bool.and_eq_true, decide_eq_true_eq]
      intro hcontra
      exact this ⟨hcontra.1, hcontra.2⟩

/-- Witness for C7: a snoozed alarm (effective time 05:10) is still found
by its original scheduled time 05:00. -/
theorem find_first_match_witness :
    AlarmClock.find_alarm_by_time_day
        ⟨[⟨1, ⟨5, 0⟩, .monday, 2, true, some ⟨5, 10⟩⟩], true⟩ "05:00" "Monday"
      = .ok (some ⟨1, ⟨5, 0⟩, .monday, 2, true, some ⟨5, 10⟩⟩, []) := by
  have h := (find_first_match ⟨[⟨1, ⟨5, 0⟩, .monday, 2, true, some ⟨5, 10⟩⟩], true⟩
    "05:00" "Monday" ⟨5, 0⟩ .monday (by decide) (by decide)).1
  rw [h]
  decide

/-- C8 as stated is false in its notification clause: deleting an absent id
emits the very same deleted notification as deleting a present id, not a
distinct not-found notification. -/
theorem delete_not_found_counterexample :
    AlarmClock.delete_alarm ⟨[], true⟩ 7 = (⟨[], true⟩, [.deleted 7]) ∧
    (AlarmClock.delete_alarm ⟨[⟨7, ⟨5, 0⟩, .monday, 0, true, none⟩], true⟩ 7).2
      = (AlarmClock.delete_alarm ⟨[], true⟩ 7).2 := by
  decide

/-- C8 amended: `delete_alarm` removes exactly the alarms with the given
id; on an absent id the state is unchanged and no exception propagates;
the operation is idempotent; and the notification is always the same
deleted message, with no distinct not-found message. -/
theorem delete_alarm_spec (c : AlarmClock) (i : Nat) :
    (c.delete_alarm i).1.alarms = c.alarms.filter (fun a => a.id ≠ i) ∧
    (c.delete_alarm i).2 = [.deleted i] ∧
    ((∀ a ∈ c.alarms, a.id ≠ i) → (c.delete_alarm i).1 = c) ∧
    ((c.delete_alarm i).1.delete_alarm i).1 = (c.delete_alarm i).1 := by
  refine ⟨rfl, rfl, ?_, ?_⟩
  · intro h
    cases c with
    | mk alarms running =>
      simp only [AlarmClock.delete_alarm, AlarmClock.mk.injEq, and_true]
      rw [List.filter_eq_self]
      intro a ha
      simpa using h a ha
  · cases c with
    | mk alarms running =>
      simp [AlarmClock.delete_alarm, List.filter_filter]

/-- Witness for the amended C8: deleting id 9 from a registry holding only
id 1 leaves the registry unchanged. -/
theorem delete_alarm_spec_witness :
    (AlarmClock.delete_alarm ⟨[⟨1, ⟨6, 0⟩, .tuesday, 0, true, none⟩], true⟩ 9).1
      = ⟨[⟨1, ⟨6, 0⟩, .tuesday, 0, true, none⟩], true⟩ := by
  have h := (delete_alarm_spec ⟨[⟨1, ⟨6, 0⟩, .tuesday, 0, true, none⟩], true⟩ 9).2.2.1
  exact h (by simp)

/-- C10: the result of `snooze` is a function of the alarm state alone:
two calls on the same alarm at any two wall-clock date-times return the
identical result, the stored snoozed time included — only the effective
hour and minute enter the computation, the date of the intermediate
datetime being discarded. -/
theorem snooze_clock_independent (a : Alarm) (wc1 wc2 : PyDateTime) :
    a.snooze wc1 = a.snooze wc2 := by
  unfold Alarm.snooze pyReplaceHourMinute
  by_cases hc : a.snooze_count < 3 <;> simp [hc]
  by_cases hr : 0 ≤ a.current_time.hour ∧ a.current_time.hour ≤ 23 ∧
      0 ≤ a.current_time.minute ∧ a.current_time.minute ≤ 59 <;> simp [hr, pyAddMinutes]

end AlarmPy
